import Mathlib

/-!
Verification of the status-classification heuristic of
`src/airline_checker.py` (`AirlineChecker.analyze_status`).

Python strings are modelled as `List Char`.  The ASCII behaviour of
`str.lower`, of Python substring containment (`in`), and of the two
regular expressions used by the source
(`ceased operations?.*?(\d{4})` searched on the lowercased text, and
`{keyword}\s+([A-Z][\w\s&-]+?)(?:\.|,|\sin\s|\sfrom\s|$)` searched
case-insensitively on the original text) is embedded as executable
functions.  The Russian result strings of the source are abstracted to
the enums `Status` (`ДЕЙСТВУЕТ` = `Operating`, `НЕ ДЕЙСТВУЕТ` =
`Defunct`, `ПЕРЕИМЕНОВАНА` = `Renamed`, `СТАТУС НЕИЗВЕСТЕН` =
`Unknown`) and `Confidence` (`ВЫСОКИЙ` = `High`, `СРЕДНИЙ` = `Medium`,
`НИЗКИЙ` = `Low`); the `new_name` dict entry `Н/Д` is modelled as
`none`.
-/

/-- Status labels returned by the classifier (spec enum
`{Operating, Defunct, Renamed, Unknown}`). -/
inductive Status where
  | Operating
  | Defunct
  | Renamed
  | Unknown
deriving DecidableEq

/-- Confidence tiers returned by the classifier (spec enum
`{High, Medium, Low}`). -/
inductive Confidence where
  | High
  | Medium
  | Low
deriving DecidableEq

/-- Result record of `analyze_status` (spec `ClassificationResult`). -/
structure ClassificationResult where
  status : Status
  new_name : Option (List Char)
  confidence : Confidence
  ceased_year : Option (List Char)
deriving DecidableEq

/-- Python `str.lower()` (ASCII behaviour), character by character. -/
def toLowerL (s : List Char) : List Char := s.map Char.toLower

/-- Does `n` occur at the very start of the second list?  (Helper for
Python substring containment.) -/
def matchesAt : List Char → List Char → Bool
  | [], _ => true
  | _ :: _, [] => false
  | a :: as, b :: bs => a == b && matchesAt as bs

/-- Python substring containment `n in h`. -/
def containsSub (n : List Char) : List Char → Bool
  | [] => matchesAt n []
  | b :: bs => matchesAt n (b :: bs) || containsSub n bs

/-- The `defunct_keywords` list of the source. -/
def defunct_keywords : List (List Char) :=
  ["ceased operations".data, "defunct".data, "no longer operates".data,
   "discontinued".data, "liquidated".data, "bankrupt".data, "shut down".data,
   "stopped flying".data, "ended operations".data, "closed down".data,
   "ceased trading".data, "went out of business".data]

/-- The `operating_keywords` list of the source. -/
def operating_keywords : List (List Char) :=
  ["currently operates".data, "operating".data, "operates flights".data,
   "active airline".data, "continues to operate".data, "flying".data,
   "serves destinations".data, "scheduled flights".data, "is operating".data]

/-- The `renamed_keywords` list of the source (tried in this order by
the successor-name extraction loop). -/
def renamed_keywords : List (List Char) :=
  ["renamed to".data, "rebranded as".data, "now known as".data,
   "changed its name to".data, "became".data, "merged with".data,
   "acquired by".data, "replaced by".data]

/-- Source line `is_defunct = any(keyword in text_lower for keyword in
defunct_keywords)`; the argument is the lowercased text. -/
def is_defunct (tl : List Char) : Bool :=
  defunct_keywords.any fun k => containsSub k tl

/-- Source line for `is_operating`; the argument is the lowercased text. -/
def is_operating (tl : List Char) : Bool :=
  operating_keywords.any fun k => containsSub k tl

/-- Source line for `is_renamed`; the argument is the lowercased text. -/
def is_renamed (tl : List Char) : Bool :=
  renamed_keywords.any fun k => containsSub k tl

/-- The `.*?(\d{4})` part of the pattern `ceased operations?.*?(\d{4})`:
walking left to right, return the first run of four decimal digits,
failing at a newline (Python `.` does not match `\n`) or at the end of
the input. -/
def grabYear : List Char → Option (List Char)
  | c :: d2 :: d3 :: d4 :: rest =>
    if c.isDigit && d2.isDigit && d3.isDigit && d4.isDigit then some [c, d2, d3, d4]
    else if c == '\x0a' then none
    else grabYear (d2 :: d3 :: d4 :: rest)
  | _ => none

/-- The optional `s` of `operations?` (greedy, and a non-newline
non-digit character otherwise, so consuming it when present is exact). -/
def skipS : List Char → List Char
  | 's' :: r => r
  | l => l

/-- Literal part of the pattern `ceased operations?.*?(\d{4})`. -/
def ceasedKw : List Char := "ceased operation".data

/-- Match of `ceased operations?.*?(\d{4})` anchored at the start of
`l`, returning the captured group. -/
def matchCeasedAt (l : List Char) : Option (List Char) :=
  if matchesAt ceasedKw l then grabYear (skipS (l.drop ceasedKw.length)) else none

/-- Python `re.search`: try the anchored matcher at every start
position, left to right, returning the first success.  (All matchers
used below reject the empty suffix, so stopping at `[]` is exact.) -/
def scanFirst (m : List Char → Option (List Char)) : List Char → Option (List Char)
  | [] => none
  | c :: rest =>
    match m (c :: rest) with
    | some g => some g
    | none => scanFirst m rest

/-- Source lines `ceased_match = re.search(ceased_date_pattern,
text_lower)` / `ceased_year = ceased_match.group(1) if ceased_match
else None`; the argument is the lowercased text. -/
def ceased_year (tl : List Char) : Option (List Char) :=
  scanFirst matchCeasedAt tl

/-- Python regex `\s` (ASCII whitespace set). -/
def pyWS (c : Char) : Bool :=
  c == ' ' || c == '\t' || c == '\x0a' || c == '\x0d' || c == '\x0b' || c == '\x0c'

/-- Python regex `\w` (ASCII part). -/
def pyWord (c : Char) : Bool := c.isAlphanum || c == '_'

/-- The character class `[\w\s&-]` of the successor-name pattern. -/
def wordChar (c : Char) : Bool := pyWord c || pyWS c || c == '&' || c == '-'

/-- The terminator `(?:\.|,|\sin\s|\sfrom\s|$)` of the successor-name
pattern, tested at the start of the given suffix; `in` and `from` are
matched case-insensitively, and `$` matches at the end of the input or
just before a trailing newline. -/
def termAt : List Char → Bool
  | [] => true
  | c :: rest =>
    c == '.' || c == ',' || (c == '\x0a' && rest.isEmpty) ||
    (pyWS c &&
      match rest with
      | i :: n :: w :: _ => i.toLower == 'i' && n.toLower == 'n' && pyWS w
      | _ => false) ||
    (pyWS c &&
      match rest with
      | f :: r :: o :: m :: w :: _ =>
        f.toLower == 'f' && r.toLower == 'r' && o.toLower == 'o' && m.toLower == 'm' && pyWS w
      | _ => false)

/-- The lazy `[\w\s&-]+?` continuation of the capture group followed by
the terminator: take the shortest non-empty run of `wordChar`
characters after which `termAt` holds, or fail. -/
def grabRest : List Char → Option (List Char)
  | [] => none
  | c :: rest =>
    if wordChar c then
      if termAt rest then some [c]
      else
        match grabRest rest with
        | some g => some (c :: g)
        | none => none
    else none

/-- Case-insensitive anchored match of a (lowercase) keyword, as done
by `re.IGNORECASE` on the literal keyword part of the pattern. -/
def matchesAtCI : List Char → List Char → Bool
  | [], _ => true
  | _ :: _, [] => false
  | a :: as, b :: bs => a == b.toLower && matchesAtCI as bs

/-- The literal keyword part of the successor-name pattern: consume the
keyword case-insensitively or fail. -/
def afterKw (kw l : List Char) : Option (List Char) :=
  if matchesAtCI kw l then some (l.drop kw.length) else none

/-- The `\s+` part: require at least one whitespace character and
consume the whole run.  The greedy `\s+` must end exactly at the first
non-whitespace character because the following `[A-Z]` accepts no
whitespace. -/
def reqWS : List Char → Option (List Char)
  | c :: rest => if pyWS c then some (rest.dropWhile pyWS) else none
  | [] => none

/-- The capture group `([A-Z][\w\s&-]+?)` followed by the terminator:
under `re.IGNORECASE` the class `[A-Z]` accepts ASCII letters of either
case. -/
def grabGroup : List Char → Option (List Char)
  | [] => none
  | a :: rest2 =>
    if a.isAlpha then
      match grabRest rest2 with
      | some g => some (a :: g)
      | none => none
    else none

/-- Match of `{keyword}\s+([A-Z][\w\s&-]+?)(?:\.|,|\sin\s|\sfrom\s|$)`
(with `re.IGNORECASE`) anchored at the start of `l`, returning the raw
captured group. -/
def matchRenamedAt (kw : List Char) (l : List Char) : Option (List Char) :=
  (afterKw kw l).bind fun l1 => (reqWS l1).bind grabGroup

/-- Python `str.strip()` (ASCII whitespace). -/
def stripWS (l : List Char) : List Char :=
  ((l.dropWhile pyWS).reverse.dropWhile pyWS).reverse

/-- The `for keyword in renamed_keywords:` loop of the source: first
keyword (in list order) whose pattern matches somewhere in the original
text wins, and its group is stripped. -/
def findNewNameGo (text : List Char) : List (List Char) → Option (List Char)
  | [] => none
  | kw :: kws =>
    match scanFirst (matchRenamedAt kw) text with
    | some g => some (stripWS g)
    | none => findNewNameGo text kws

/-- Successor-name search over the fixed keyword list. -/
def find_new_name (text : List Char) : Option (List Char) :=
  findNewNameGo text renamed_keywords

/-- Source lines `new_name = None` / `if is_renamed: for keyword in
renamed_keywords: ...`: the extraction loop runs only when a renamed
keyword occurred in the lowercased text, but searches the original
text case-insensitively. -/
def new_name (text : List Char) : Option (List Char) :=
  if is_renamed (toLowerL text) then find_new_name text else none

set_option linter.unusedVariables false in
/-- The classifier `AirlineChecker.analyze_status(text, airline_name)`
(the spec names it `classify(subjectName, sourceText)`).  The source
computes `airline_lower = airline_name.lower()` but never uses it, so
the body ignores `airline_name`.  Total by construction: every helper
is structurally recursive. -/
def analyze_status (text airline_name : List Char) : ClassificationResult :=
  { status :=
      if is_defunct (toLowerL text) then Status.Defunct
      else if is_operating (toLowerL text) then Status.Operating
      else if is_renamed (toLowerL text) && (new_name text).isSome then Status.Renamed
      else Status.Unknown,
    new_name := new_name text,
    confidence :=
      if is_defunct (toLowerL text) && (ceased_year (toLowerL text)).isSome then Confidence.High
      else if is_operating (toLowerL text) && containsSub "currently".data (toLowerL text) then
        Confidence.High
      else if is_defunct (toLowerL text) || is_operating (toLowerL text) then Confidence.Medium
      else Confidence.Low,
    ceased_year := ceased_year (toLowerL text) }

/-- Anchored matching is prefix ordering. -/
theorem matchesAt_iff {n h : List Char} : matchesAt n h = true ↔ n <+: h := by
  induction n generalizing h with
  | nil => simp [matchesAt]
  | cons a as ih =>
    cases h with
    | nil => simp [matchesAt]
    | cons b bs => simp [matchesAt, List.cons_prefix_cons, ih]

/-- Python substring containment is infix ordering. -/
theorem containsSub_iff {n h : List Char} : containsSub n h = true ↔ n <:+: h := by
  induction h with
  | nil => simp [containsSub, matchesAt_iff]
  | cons b bs ih => simp [containsSub, matchesAt_iff, ih, List.infix_cons_iff]

/-- Containment is transitive through an intermediate string. -/
theorem containsSub_trans {a b c : List Char} (h1 : containsSub a b = true)
    (h2 : containsSub b c = true) : containsSub a c = true := by
  rw [containsSub_iff] at h1 h2 ⊢
  exact h1.trans h2

/-- Lowercasing both sides preserves containment. -/
theorem containsSub_toLowerL {n h : List Char} (hc : containsSub n h = true) :
    containsSub (toLowerL n) (toLowerL h) = true := by
  rw [containsSub_iff] at hc ⊢
  exact List.IsInfix.map Char.toLower hc

/-- A contained defunct keyword forces `is_defunct`. -/
theorem is_defunct_of_keyword {k tl : List Char} (hk : k ∈ defunct_keywords)
    (h : containsSub k tl = true) : is_defunct tl = true := by
  simp only [is_defunct, List.any_eq_true]
  exact ⟨k, hk, h⟩

/-- A contained renamed keyword forces `is_renamed`. -/
theorem is_renamed_of_keyword {k tl : List Char} (hk : k ∈ renamed_keywords)
    (h : containsSub k tl = true) : is_renamed tl = true := by
  simp only [is_renamed, List.any_eq_true]
  exact ⟨k, hk, h⟩

/-- If the anchored matcher succeeds on a suffix, the left-to-right
search succeeds on the whole string. -/
theorem scanFirst_isSome_append (m : List Char → Option (List Char)) (u rest : List Char)
    (hne : rest ≠ []) (hm : (m rest).isSome = true) :
    (scanFirst m (u ++ rest)).isSome = true := by
  induction u with
  | nil =>
    cases rest with
    | nil => exact absurd rfl hne
    | cons c r =>
      rw [List.nil_append]
      unfold scanFirst
      cases hmr : m (c :: r) with
      | some g => rfl
      | none => rw [hmr] at hm; simp at hm
  | cons a u ih =>
    rw [List.cons_append]
    unfold scanFirst
    cases hmr : m (a :: (u ++ rest)) with
    | some g => rfl
    | none => exact ih

/-- A successful search comes from a successful anchored match on some
suffix. -/
theorem scanFirst_some {m : List Char → Option (List Char)} {h : List Char} {y : List Char}
    (hs : scanFirst m h = some y) : ∃ s, m s = some y := by
  induction h with
  | nil => simp [scanFirst] at hs
  | cons c r ih =>
    unfold scanFirst at hs
    rcases hmr : m (c :: r) with _ | g <;> rw [hmr] at hs
    · exact ih hs
    · exact ⟨c :: r, by rw [hmr]; exact hs⟩

/-- Whatever `grabYear` captures is a run of four decimal digits. -/
theorem grabYear_some {l y : List Char} (h : grabYear l = some y) :
    y.length = 4 ∧ y.all Char.isDigit = true := by
  induction l with
  | nil => simp [grabYear] at h
  | cons c rest ih =>
    cases rest with
    | nil => simp [grabYear] at h
    | cons d2 r2 =>
      cases r2 with
      | nil => simp [grabYear] at h
      | cons d3 r3 =>
        cases r3 with
        | nil => simp [grabYear] at h
        | cons d4 r4 =>
          rw [grabYear] at h
          split at h
          · next hdig =>
            injection h with h
            subst h
            simp only [Bool.and_eq_true] at hdig
            refine ⟨rfl, ?_⟩
            simp [List.all_eq_true, hdig.1.1.1, hdig.1.1.2, hdig.1.2, hdig.2]
          · split at h
            · exact absurd h (by simp)
            · exact ih h

/-- A successful `matchCeasedAt` returns a four-digit year. -/
theorem matchCeasedAt_some {l y : List Char} (h : matchCeasedAt l = some y) :
    y.length = 4 ∧ y.all Char.isDigit = true := by
  unfold matchCeasedAt at h
  split at h
  · exact grabYear_some h
  · exact absurd h (by simp)

/-- An ASCII letter is not Python whitespace. -/
theorem pyWS_eq_false_of_isAlpha {c : Char} (h : c.isAlpha = true) : pyWS c = false := by
  cases hw : pyWS c
  · rfl
  · simp only [pyWS, Bool.or_eq_true, beq_iff_eq] at hw
    rcases hw with ((((rfl | rfl) | rfl) | rfl) | rfl) | rfl <;> exact absurd h (by decide)

/-- An ASCII letter is in the capture-group character class. -/
theorem wordChar_of_isAlpha {c : Char} (h : c.isAlpha = true) : wordChar c = true := by
  simp [wordChar, pyWord, Char.isAlphanum, h]

/-- Whatever the lazy group continuation captures is inside `[\w\s&-]`. -/
theorem grabRest_all {l g : List Char} (h : grabRest l = some g) : g.all wordChar = true := by
  induction l generalizing g with
  | nil => simp [grabRest] at h
  | cons c rest ih =>
    rw [grabRest] at h
    split at h
    · next hw =>
      split at h
      · injection h with h
        subst h
        simp [hw]
      · rcases hr : grabRest rest with _ | g' <;> rw [hr] at h
        · exact absurd h (by simp)
        · injection h with h
          subst h
          simp only [List.all_cons, Bool.and_eq_true, hw, true_and]
          exact ih hr
    · exact absurd h (by simp)

/-- A successful capture group is a letter followed by `[\w\s&-]`
characters. -/
theorem grabGroup_some {l g : List Char} (h : grabGroup l = some g) :
    ∃ a g', g = a :: g' ∧ a.isAlpha = true ∧ g'.all wordChar = true := by
  cases l with
  | nil => simp [grabGroup] at h
  | cons a rest2 =>
    rw [grabGroup] at h
    split at h
    · next ha =>
      rcases hg : grabRest rest2 with _ | g' <;> rw [hg] at h
      · exact absurd h (by simp)
      · injection h with h
        exact ⟨a, g', h.symm, ha, grabRest_all hg⟩
    · exact absurd h (by simp)

/-- A successful anchored successor-name match returns a letter followed
by `[\w\s&-]` characters. -/
theorem matchRenamedAt_some {kw l g : List Char} (h : matchRenamedAt kw l = some g) :
    ∃ a g', g = a :: g' ∧ a.isAlpha = true ∧ g'.all wordChar = true := by
  unfold matchRenamedAt at h
  obtain ⟨l1, h1, h⟩ := Option.bind_eq_some.mp h
  obtain ⟨l2, h2, h⟩ := Option.bind_eq_some.mp h
  exact grabGroup_some h

/-- Helper: `dropWhile` distributes over appending a kept last element. -/
theorem dropWhile_append_single {p : Char → Bool} {a : Char} (ha : p a = false)
    (xs : List Char) : (xs ++ [a]).dropWhile p = xs.dropWhile p ++ [a] := by
  induction xs with
  | nil => simp [List.dropWhile_cons, ha]
  | cons x xs ih =>
    rw [List.cons_append, List.dropWhile_cons, List.dropWhile_cons]
    split <;> simp [ih]

/-- Stripping a group that starts with a non-whitespace character keeps
that character in front and only removes characters from the tail. -/
theorem stripWS_cons {a : Char} {g : List Char} (ha : pyWS a = false) :
    ∃ cs, stripWS (a :: g) = a :: cs ∧ ∀ c ∈ cs, c ∈ g := by
  unfold stripWS
  rw [List.dropWhile_cons]
  simp only [ha, if_neg, Bool.false_eq_true, ite_false, List.reverse_cons]
  rw [dropWhile_append_single ha g.reverse, List.reverse_append]
  refine ⟨(g.reverse.dropWhile pyWS).reverse, by simp, ?_⟩
  intro c hc
  rw [List.mem_reverse] at hc
  have := (List.dropWhile_sublist (l := g.reverse) pyWS).subset hc
  rwa [List.mem_reverse] at this

/-- A successful run of the keyword loop comes from a successful search
for one of the keywords, whose stripped group is the answer. -/
theorem findNewNameGo_some {text nm : List Char} {kws : List (List Char)}
    (h : findNewNameGo text kws = some nm) :
    ∃ kw g, scanFirst (matchRenamedAt kw) text = some g ∧ nm = stripWS g := by
  induction kws with
  | nil => simp [findNewNameGo] at h
  | cons kw kws ih =>
    rw [findNewNameGo] at h
    rcases hs : scanFirst (matchRenamedAt kw) text with _ | g <;> rw [hs] at h
    · exact ih h
    · injection h with h
      exact ⟨kw, g, hs, h.symm⟩

/-- Any extracted successor name starts with an ASCII letter (of either
case) and consists of `[\w\s&-]` characters only. -/
theorem new_name_shape {text nm : List Char} (h : new_name text = some nm) :
    ∃ c cs, nm = c :: cs ∧ c.isAlpha = true ∧ nm.all wordChar = true := by
  unfold new_name at h
  split at h
  · obtain ⟨kw, g, hscan, hnm⟩ := findNewNameGo_some h
    obtain ⟨s, hmatch⟩ := scanFirst_some hscan
    obtain ⟨a, g', hg, ha, hall⟩ := matchRenamedAt_some hmatch
    subst hg
    obtain ⟨cs, hstrip, hsub⟩ := stripWS_cons (pyWS_eq_false_of_isAlpha ha)
    refine ⟨a, cs, hnm.trans hstrip, ha, ?_⟩
    rw [hnm, hstrip]
    simp only [List.all_cons, Bool.and_eq_true]
    refine ⟨wordChar_of_isAlpha ha, ?_⟩
    rw [List.all_eq_true]
    intro x hx
    rw [List.all_eq_true] at hall
    exact hall x (hsub x hx)
  · exact absurd h (by simp)

/-- Claim C4, amended: a text containing `ceased operations in 1998` is
classified Defunct with confidence High and some four-digit extracted
`ceasedYear`; the year is the group of the leftmost regex match, which
is `1998` only when no earlier `ceased operation(s) ... digits`
occurrence precedes (see the counterexample). -/
theorem claimC4_amended (name text : List Char)
    (h : containsSub "ceased operations in 1998".data text = true) :
    (analyze_status text name).status = Status.Defunct ∧
    (analyze_status text name).confidence = Confidence.High ∧
    ∃ y, (analyze_status text name).ceased_year = some y ∧
      y.length = 4 ∧ y.all Char.isDigit = true := by
  have hlow : containsSub "ceased operations in 1998".data (toLowerL text) = true := by
    have h2 := containsSub_toLowerL h
    rwa [show toLowerL "ceased operations in 1998".data = "ceased operations in 1998".data from
      by decide] at h2
  have hd : is_defunct (toLowerL text) = true :=
    is_defunct_of_keyword (k := "ceased operations".data) (by decide)
      (containsSub_trans (by decide) hlow)
  have hy : (ceased_year (toLowerL text)).isSome = true := by
    rw [containsSub_iff] at hlow
    obtain ⟨u, v, huv⟩ := hlow
    have hsplit : toLowerL text = u ++ ("ceased operations in 1998".data ++ v) := by
      rw [← huv, List.append_assoc]
    unfold ceased_year
    rw [hsplit]
    refine scanFirst_isSome_append _ u _ (List.cons_ne_nil _ _) ?_
    rw [show matchCeasedAt ("ceased operations in 1998".data ++ v) = some "1998".data from rfl]
    rfl
  obtain ⟨y, hy2⟩ := Option.isSome_iff_exists.mp hy
  obtain ⟨s, hm⟩ := scanFirst_some hy2
  obtain ⟨hlen, hdig⟩ := matchCeasedAt_some hm
  refine ⟨by simp [analyze_status, hd], by simp [analyze_status, hd, hy], y, ?_, hlen, hdig⟩
  show ceased_year (toLowerL text) = some y
  exact hy2

/-- Claim C4, counterexample: in a text that contains
`ceased operations in 1998` but has an earlier `ceased operation`
occurrence followed by digits, the extracted year is the one of the
leftmost match (`1977`), not `1998`. -/
theorem claimC4_counterexample :
    containsSub "ceased operations in 1998".data
        "ceased operation in 1977 and ceased operations in 1998".data = true ∧
    (analyze_status "ceased operation in 1977 and ceased operations in 1998".data
        "x".data).ceased_year = some "1977".data ∧
    (analyze_status "ceased operation in 1977 and ceased operations in 1998".data
        "x".data).ceased_year ≠ some "1998".data := by
  decide

/-- Claim C4, witness: the amended theorem applied to the text
`ceased operations in 1998` itself. -/
theorem claimC4_witness :
    (analyze_status "ceased operations in 1998".data "x".data).status = Status.Defunct ∧
    (analyze_status "ceased operations in 1998".data "x".data).confidence = Confidence.High ∧
    ∃ y, (analyze_status "ceased operations in 1998".data "x".data).ceased_year = some y ∧
      y.length = 4 ∧ y.all Char.isDigit = true :=
  claimC4_amended "x".data "ceased operations in 1998".data (by decide)

/-- Claim C5, amended: a text containing `was renamed to Delta
Airlines.` with no defunct and no operating keyword is classified
Renamed with some extracted successor name; that name is the group of
the leftmost `renamed to` match, so it contains `Delta Airlines` only
when no earlier `renamed to` occurrence matches first (see the
counterexample). -/
theorem claimC5_amended (name text : List Char)
    (h : containsSub "was renamed to Delta Airlines.".data text = true)
    (hd : is_defunct (toLowerL text) = false)
    (ho : is_operating (toLowerL text) = false) :
    (analyze_status text name).status = Status.Renamed ∧
    ((analyze_status text name).new_name).isSome = true := by
  have hlow : containsSub "was renamed to delta airlines.".data (toLowerL text) = true := by
    have h2 := containsSub_toLowerL h
    rwa [show toLowerL "was renamed to Delta Airlines.".data =
      "was renamed to delta airlines.".data from by decide] at h2
  have hr : is_renamed (toLowerL text) = true :=
    is_renamed_of_keyword (k := "renamed to".data) (by decide)
      (containsSub_trans (by decide) hlow)
  have hscan : (scanFirst (matchRenamedAt "renamed to".data) text).isSome = true := by
    rw [containsSub_iff] at h
    obtain ⟨u, v, huv⟩ := h
    have hsplit : text = (u ++ "was ".data) ++ ("renamed to Delta Airlines.".data ++ v) := by
      rw [← huv,
        show ("was renamed to Delta Airlines.".data : List Char) =
          "was ".data ++ "renamed to Delta Airlines.".data from rfl]
      simp [List.append_assoc]
    rw [hsplit]
    refine scanFirst_isSome_append _ _ _ (List.cons_ne_nil _ _) ?_
    rw [show matchRenamedAt "renamed to".data ("renamed to Delta Airlines.".data ++ v) =
      some "Delta Airlines".data from rfl]
    rfl
  have hnm : (new_name text).isSome = true := by
    unfold new_name
    rw [hr]
    simp only [if_true]
    obtain ⟨g, hg⟩ := Option.isSome_iff_exists.mp hscan
    simp only [find_new_name, renamed_keywords, findNewNameGo]
    rw [hg]
    rfl
  refine ⟨by simp [analyze_status, hd, ho, hr, hnm], hnm⟩

/-- Claim C5, counterexample: with an earlier `renamed to` occurrence in
the text, the extracted successor name is the leftmost match (`Alpha`),
which does not contain `Delta Airlines`. -/
theorem claimC5_counterexample :
    containsSub "was renamed to Delta Airlines.".data
        "renamed to Alpha, was renamed to Delta Airlines.".data = true ∧
    is_defunct (toLowerL "renamed to Alpha, was renamed to Delta Airlines.".data) = false ∧
    is_operating (toLowerL "renamed to Alpha, was renamed to Delta Airlines.".data) = false ∧
    (analyze_status "renamed to Alpha, was renamed to Delta Airlines.".data "x".data).status =
      Status.Renamed ∧
    (analyze_status "renamed to Alpha, was renamed to Delta Airlines.".data "x".data).new_name =
      some "Alpha".data ∧
    containsSub "Delta Airlines".data "Alpha".data = false := by
  decide

/-- Claim C5, witness: the amended theorem applied to the text
`was renamed to Delta Airlines.` itself. -/
theorem claimC5_witness :
    (analyze_status "was renamed to Delta Airlines.".data "x".data).status = Status.Renamed ∧
    ((analyze_status "was renamed to Delta Airlines.".data "x".data).new_name).isSome = true :=
  claimC5_amended "x".data "was renamed to Delta Airlines.".data (by decide) (by decide)
    (by decide)

/-- Claim C1, corrected: the confidence tier is High exactly when
(a defunct keyword matched and a year was extracted) or (an operating
keyword matched and `currently` occurs in the lowercased text); it is
Medium exactly when at least one (not: exactly one) of the defunct and
operating keyword sets matched without the High condition; it is Low
exactly when neither matched. -/
theorem claimC1_amended (name text : List Char) :
    ((analyze_status text name).confidence = Confidence.High ↔
      ((is_defunct (toLowerL text) = true ∧ (ceased_year (toLowerL text)).isSome = true) ∨
       (is_operating (toLowerL text) = true ∧
        containsSub "currently".data (toLowerL text) = true))) ∧
    ((analyze_status text name).confidence = Confidence.Medium ↔
      ((is_defunct (toLowerL text) = true ∨ is_operating (toLowerL text) = true) ∧
       ¬ ((is_defunct (toLowerL text) = true ∧ (ceased_year (toLowerL text)).isSome = true) ∨
          (is_operating (toLowerL text) = true ∧
           containsSub "currently".data (toLowerL text) = true)))) ∧
    ((analyze_status text name).confidence = Confidence.Low ↔
      (is_defunct (toLowerL text) = false ∧ is_operating (toLowerL text) = false)) := by
  cases hd : is_defunct (toLowerL text) <;>
    cases ho : is_operating (toLowerL text) <;>
    cases hy : (ceased_year (toLowerL text)).isSome <;>
    cases hc : containsSub "currently".data (toLowerL text) <;>
    simp [analyze_status, hd, ho, hy, hc]

/-- Claim C1, counterexample: on a text where both a defunct and an
operating keyword match and the High condition fails, the code returns
Medium, while the claim ("exactly one ... Medium; Low otherwise")
demands Low. -/
theorem claimC1_counterexample :
    is_defunct (toLowerL "defunct and flying".data) = true ∧
    is_operating (toLowerL "defunct and flying".data) = true ∧
    (ceased_year (toLowerL "defunct and flying".data)).isSome = false ∧
    containsSub "currently".data (toLowerL "defunct and flying".data) = false ∧
    (analyze_status "defunct and flying".data "x".data).confidence = Confidence.Medium ∧
    (analyze_status "defunct and flying".data "x".data).confidence ≠ Confidence.Low := by
  decide

/-- Claim C2, confirmed: the status follows the priority order Defunct,
then Operating, then Renamed (which also needs an extracted successor
name), then Unknown; a defunct keyword match wins even when operating or
renamed keywords also match. -/
theorem claimC2 (name text : List Char) :
    ((analyze_status text name).status = Status.Defunct ↔
      is_defunct (toLowerL text) = true) ∧
    ((analyze_status text name).status = Status.Operating ↔
      (is_defunct (toLowerL text) = false ∧ is_operating (toLowerL text) = true)) ∧
    ((analyze_status text name).status = Status.Renamed ↔
      (is_defunct (toLowerL text) = false ∧ is_operating (toLowerL text) = false ∧
       is_renamed (toLowerL text) = true ∧ (new_name text).isSome = true)) ∧
    ((analyze_status text name).status = Status.Unknown ↔
      (is_defunct (toLowerL text) = false ∧ is_operating (toLowerL text) = false ∧
       (is_renamed (toLowerL text) = false ∨ (new_name text).isSome = false))) := by
  cases hd : is_defunct (toLowerL text) <;>
    cases ho : is_operating (toLowerL text) <;>
    cases hr : is_renamed (toLowerL text) <;>
    cases hn : (find_new_name text).isSome <;>
    simp [analyze_status, new_name, hd, ho, hr, hn]

/-- Claim C3, confirmed: on the empty source text the classifier
returns status Unknown, confidence Low, and no successor name (and,
additionally, no ceased year). -/
theorem claimC3 (name : List Char) :
    analyze_status [] name =
      { status := Status.Unknown, new_name := none, confidence := Confidence.Low,
        ceased_year := none } := rfl

/-- Claim C6, amended: any extracted candidate successor name is the
phrase following (case-insensitively) the first renamed keyword, in the
fixed keyword-list order, that has a pattern match: it starts with an
ASCII letter of either case (not necessarily a capital, because the
pattern is compiled with `re.IGNORECASE`) and consists of word,
whitespace, `&` and `-` characters only, the boundary characters `.`
and `,`, the delimiters ` in ` / ` from `, and the end of text being
excluded by the pattern. -/
theorem claimC6_amended (name text nm : List Char)
    (h : (analyze_status text name).new_name = some nm) :
    ∃ c cs, nm = c :: cs ∧ c.isAlpha = true ∧ nm.all wordChar = true :=
  new_name_shape h

/-- Claim C6, counterexample: with `re.IGNORECASE` the class `[A-Z]`
accepts lowercase letters, so the extracted candidate need not be a
capitalized phrase: here it is `delta airlines`, whose first character
is not an uppercase letter. -/
theorem claimC6_counterexample :
    is_renamed (toLowerL "was renamed to delta airlines.".data) = true ∧
    (analyze_status "was renamed to delta airlines.".data "x".data).new_name =
      some "delta airlines".data ∧
    ("delta airlines".data.head?.map Char.isUpper) = some false := by
  decide

/-- Claim C6, witness: the amended theorem applied to a concrete
extraction. -/
theorem claimC6_witness :
    ∃ c cs, "Gamma Air".data = c :: cs ∧ c.isAlpha = true ∧
      ("Gamma Air".data).all wordChar = true :=
  claimC6_amended "x".data "was rebranded as Gamma Air.".data "Gamma Air".data (by decide)

/-- Claim C7, confirmed: the classifier is total by construction (every
helper is structurally recursive, so `analyze_status` is a total Lean
function), and when no keyword of any of the three sets matches it
returns status Unknown with confidence Low and no successor name,
rather than failing. -/
theorem claimC7 (name text : List Char)
    (hd : is_defunct (toLowerL text) = false)
    (ho : is_operating (toLowerL text) = false)
    (hr : is_renamed (toLowerL text) = false) :
    (analyze_status text name).status = Status.Unknown ∧
    (analyze_status text name).confidence = Confidence.Low ∧
    (analyze_status text name).new_name = none := by
  simp [analyze_status, new_name, hd, ho, hr]

/-- Claim C7, witness: the theorem applied to a keyword-free text. -/
theorem claimC7_witness :
    (analyze_status "hello world".data "x".data).status = Status.Unknown ∧
    (analyze_status "hello world".data "x".data).confidence = Confidence.Low ∧
    (analyze_status "hello world".data "x".data).new_name = none :=
  claimC7 "x".data "hello world".data (by decide) (by decide) (by decide)

/-- Claim C8, confirmed: the classifier is a pure function of its two
arguments (the embedding is deterministic by construction), so two
invocations on identical inputs return identical results. -/
theorem claimC8 (n1 t1 n2 t2 : List Char) (hn : n1 = n2) (ht : t1 = t2) :
    analyze_status t1 n1 = analyze_status t2 n2 := by
  rw [hn, ht]

/-- Claim C8, witness: the theorem applied to one concrete input pair. -/
theorem claimC8_witness :
    analyze_status "some text".data "some airline".data =
      analyze_status "some text".data "some airline".data :=
  claimC8 "some airline".data "some text".data "some airline".data "some text".data rfl rfl

/-- Claim C9, confirmed: the result does not depend on the queried
subject name (the source computes `airline_lower` but never uses it):
both invocations return the same record. -/
theorem claimC9 (text n1 n2 : List Char) :
    analyze_status text n1 = analyze_status text n2 := rfl

/-- Claim C10, amended: the `ceasedYear` field is always the result of
searching the lowercased text with `ceased operations?.*?(\d{4})`,
independently of the keyword flags, and on the singular text
`the airline ceased operation in 1999` it is `1999` while the status is
Unknown, not Defunct; the amendment is that the wildcard `.` does not
cross newlines, so the four digits must follow on the same line rather
than at any distance (see the counterexample). -/
theorem claimC10_amended :
    (∀ name text : List Char,
      (analyze_status text name).ceased_year = ceased_year (toLowerL text)) ∧
    (analyze_status "the airline ceased operation in 1999".data "x".data).ceased_year =
      some "1999".data ∧
    (analyze_status "the airline ceased operation in 1999".data "x".data).status =
      Status.Unknown := by
  exact ⟨fun name text => rfl, by decide, by decide⟩

/-- Claim C10, counterexample: when a newline separates
`ceased operations` from the four digits, the regex finds no year at
all, contradicting the claim's `at any distance`. -/
theorem claimC10_counterexample :
    containsSub "ceased operations".data
        (toLowerL "ceased operations on\x0a1999".data) = true ∧
    containsSub "1999".data (toLowerL "ceased operations on\x0a1999".data) = true ∧
    (analyze_status "ceased operations on\x0a1999".data "x".data).ceased_year = none := by
  decide
example : ceased_year "the airline ceased operations in 1998".data = some "1998".data := by decide
example : ceased_year "ceased operation in 1977 and ceased operations in 1998".data = some "1977".data := by decide
example : ceased_year "ceased operations on\x0a1999".data = none := by decide
example : new_name "was renamed to Delta Airlines.".data = some "Delta Airlines".data := by decide
example : new_name "renamed to Alpha, was renamed to Delta Airlines.".data = some "Alpha".data := by decide
example : new_name "was renamed to delta airlines.".data = some "delta airlines".data := by decide
example : analyze_status [] "x".data =
    { status := Status.Unknown, new_name := none, confidence := Confidence.Low,
      ceased_year := none } := by decide
example : (analyze_status "defunct and flying".data "x".data).confidence = Confidence.Medium := by
  decide
example : (analyze_status "the airline ceased operation in 1999".data "x".data).status =
    Status.Unknown := by decide
example : (analyze_status "the airline ceased operation in 1999".data "x".data).ceased_year =
    some "1999".data := by decide
example : (analyze_status "It is currently operating flights daily.".data "x".data).confidence =
    Confidence.High := by decide
